import Mathlib

/-!
# GLWidget (src/apps/umve/glwidget.cc): a shallow embedding

The widget is a record of its data members; every member function is a pure
function from the widget (and its arguments) to the updated widget together
with the list of calls it issued, in order.  A call through a null
`context` pointer and an out-of-range `static_cast<int>` are undefined
behaviour in C++; both are modelled as an explicit `Fault`.

A `qreal` is taken to be an IEEE 754 binary64 `double`, and a product of
two of them to be evaluated in binary64 with the default rounding (to
nearest, ties to even): `to_double` is that rounding, on exact rationals.
-/

/-- Identity of an `ogl::Context` object: the widget only ever compares the
pointer, so a context is modelled by a number naming the object. -/
abbrev Context := Nat

/-- The `type` field of `ogl::MouseEvent`, as assigned in glwidget.cc. -/
inductive MouseEventType where
  | MOUSE_EVENT_PRESS
  | MOUSE_EVENT_RELEASE
  | MOUSE_EVENT_MOVE
  | MOUSE_EVENT_WHEEL_UP
  | MOUSE_EVENT_WHEEL_DOWN
deriving DecidableEq

/-- The `type` field of `ogl::KeyboardEvent`, as assigned in glwidget.cc. -/
inductive KeyboardEventType where
  | KEYBOARD_EVENT_PRESS
  | KEYBOARD_EVENT_RELEASE
deriving DecidableEq

/-- Modelled from the spec: the enumerator `ogl::MOUSE_BUTTON_NONE` of
ogl/events.h, a header that is not part of the sources at hand.  The spec
lists `none` as one of the button values; buttons are kept as their integer
codes because the handlers cast the toolkit code unchanged. -/
def MOUSE_BUTTON_NONE : Int := 0

/-- The event record `ogl::MouseEvent` filled in by the mouse and wheel handlers. -/
structure MouseEvent where
  type : MouseEventType
  button : Int
  button_mask : Int
  x : Int
  y : Int
deriving DecidableEq

/-- The event record `ogl::KeyboardEvent` filled in by the key handlers. -/
structure KeyboardEvent where
  type : KeyboardEventType
  keycode : Int
deriving DecidableEq

/-- The fields of a `QMouseEvent` that the handlers read. -/
structure QMouseEvent where
  button : Int
  buttons : Int
  x : Int
  y : Int
deriving DecidableEq

/-- The fields of a `QWheelEvent` that `wheelEvent` reads. -/
structure QWheelEvent where
  delta : Int
  buttons : Int
  x : Int
  y : Int
deriving DecidableEq

/-- The fields of a `QKeyEvent` that the key handlers read. -/
structure QKeyEvent where
  key : Int
  isAutoRepeat : Bool
deriving DecidableEq

/-- What the handlers take from the toolkit build and window: the value of
`QT_VERSION` that selects the `#if` branch, and the pixel ratio of the
window.  The ratio is given as a rational; `devicePixelRatio()` returns it
as a `qreal`, the binary64 value nearest to it (the ratio itself when it is
a binary64 value, as every value the function can return is). -/
structure Toolkit where
  QT_VERSION : Nat
  devicePixelRatio : ℚ

/-- Every call a member function issues, in the order issued: the five
calls on the attached `ogl::Context` (tagged with the context they go to),
the two base-class key handlers, and `repaint_timer->start()`. -/
inductive Call where
  | init (c : Context)
  | resize (c : Context) (width height : Int)
  | paint (c : Context)
  | mouse_event (c : Context) (e : MouseEvent)
  | keyboard_event (c : Context) (e : KeyboardEvent)
  | QWidget_keyPressEvent (event : QKeyEvent)
  | QWidget_keyReleaseEvent (event : QKeyEvent)
  | timer_start
deriving DecidableEq

/-- The two kinds of undefined behaviour a handler can run into. -/
inductive Fault where
  | null_dereference
  | cast_out_of_range
deriving DecidableEq

/-- The data members of `GLWidget`.  `context` is a pointer that may be null;
`init_set` is the set of context pointers already initialised;
`repaint_timer` records whether the single-shot timer is active. -/
structure GLWidget where
  context : Option Context
  gl_width : Int
  gl_height : Int
  cx_init : Bool
  init_set : Finset Context
  repaint_timer : Bool
deriving DecidableEq

/-- The constructor `GLWidget::GLWidget`: no context, size 0 x 0, `cx_init`
false, an empty `init_set` and a freshly created, inactive single-shot timer. -/
def GLWidget.construct : GLWidget :=
  { context := none
    gl_width := 0
    gl_height := 0
    cx_init := false
    init_set := ∅
    repaint_timer := false }

/-- The member `GLWidget::resizeGL`: the diagnostic line written to
`std::cout` is not a call on the context and is left out. -/
def GLWidget.resizeGL (this : GLWidget) (width height : Int) : GLWidget × List Call :=
  let this1 := { this with gl_width := width, gl_height := height }
  match this1.context with
  | some c => (this1, [Call.resize c width height])
  | none => (this1, [])

/-- The member `GLWidget::paintGL`. -/
def GLWidget.paintGL (this : GLWidget) : GLWidget × List Call :=
  match this.context with
  | none => (this, [])
  | some c =>
    if this.cx_init then
      if c ∉ this.init_set then
        ({ this with init_set := insert c this.init_set, cx_init := false },
          [Call.init c, Call.resize c this.gl_width this.gl_height, Call.paint c])
      else
        ({ this with cx_init := false }, [Call.paint c])
    else
      (this, [Call.paint c])

/-- The member `GLWidget::set_context`; the argument is a pointer and may be null. -/
def GLWidget.set_context (this : GLWidget) (context : Option Context) : GLWidget × List Call :=
  ({ this with context := context, cx_init := true }, [])

/-- Modelled from the spec: `GLWidget::repaint_async` is defined in
glwidget.h, which is not part of the sources at hand.  The spec: input
handlers arm a one-shot deferred trigger; a request that arrives while one is
already pending is a no-op (arm-if-not-armed). -/
def GLWidget.repaint_async (this : GLWidget) : GLWidget × List Call :=
  if this.repaint_timer then (this, [])
  else ({ this with repaint_timer := true }, [Call.timer_start])

/-- Rounding of a rational to the nearest integer, a tie going to the even
one. -/
def round_half_even (t : ℚ) : Int :=
  if t - ⌊t⌋ < 1 / 2 then ⌊t⌋
  else if 1 / 2 < t - ⌊t⌋ then ⌊t⌋ + 1
  else if ⌊t⌋ % 2 = 0 then ⌊t⌋ else ⌊t⌋ + 1

/-- The exponent of the unit in the last place of the binary64 values around
`q`: 52 below the binary exponent of `q` (53 significant bits), and never
below -1074 (the subnormal range). -/
def binary64_exponent (q : ℚ) : Int := max (Int.log 2 |q| - 52) (-1074)

/-- The binary64 value an exact result `q` is rounded to (to nearest, ties to
even): the nearest multiple of `2 ^ binary64_exponent q`; `none` when the
rounded magnitude reaches `2 ^ 1024`, where binary64 gives an infinity. -/
def to_double (q : ℚ) : Option ℚ :=
  if q = 0 then some 0
  else
    let d := (round_half_even (q / 2 ^ binary64_exponent q) : ℚ) * 2 ^ binary64_exponent q
    if |d| < 2 ^ 1024 then some d else none

/-- The expression `event->x() * pixel_ratio`: the `int` coordinate is
converted to `double` (exactly, an `int` has 32 bits), and the product with
the `qreal` pixel ratio is rounded to binary64.  `none` stands for an
infinite or undefined product. -/
def double_product (ratio : ℚ) (v : Int) : Option ℚ :=
  match to_double ratio with
  | none => none
  | some pixel_ratio => to_double ((v : ℚ) * pixel_ratio)

/-- The conversion `static_cast<int>(v)` of a floating value: the fractional
part is discarded (rounding toward zero); the behaviour is undefined when
the result does not fit a 32-bit `int`. -/
def static_cast_int (v : ℚ) : Except Fault Int :=
  let t := Int.tdiv v.num v.den
  if -2147483648 ≤ t ∧ t ≤ 2147483647 then Except.ok t else Except.error Fault.cast_out_of_range

/-- The `#if QT_VERSION >= 0x050000` block shared by the four mouse
handlers, for one coordinate: scaled by the pixel ratio in `double`
arithmetic and cast to `int` from Qt 5 on, taken unchanged before.  The
cast of an infinite or undefined product is undefined like that of any
other value out of range. -/
def pixel_coord (tk : Toolkit) (v : Int) : Except Fault Int :=
  if tk.QT_VERSION ≥ 0x050000 then
    match double_product tk.devicePixelRatio v with
    | some p => static_cast_int p
    | none => Except.error Fault.cast_out_of_range
  else Except.ok v

/-- The statement `this->context->mouse_event(e); this->repaint_async();`
that ends the four mouse handlers. -/
def GLWidget.forward_mouse (this : GLWidget) (e : MouseEvent) :
    Except Fault (GLWidget × List Call) :=
  match this.context with
  | none => Except.error Fault.null_dereference
  | some c => Except.ok ((this.repaint_async).1, Call.mouse_event c e :: (this.repaint_async).2)

/-- The statement `this->context->keyboard_event(e); this->repaint_async();`
that ends the two key handlers. -/
def GLWidget.forward_key (this : GLWidget) (e : KeyboardEvent) :
    Except Fault (GLWidget × List Call) :=
  match this.context with
  | none => Except.error Fault.null_dereference
  | some c => Except.ok ((this.repaint_async).1, Call.keyboard_event c e :: (this.repaint_async).2)

/-- The member `GLWidget::mousePressEvent`. -/
def GLWidget.mousePressEvent (tk : Toolkit) (this : GLWidget) (event : QMouseEvent) :
    Except Fault (GLWidget × List Call) :=
  match pixel_coord tk event.x with
  | Except.error f => Except.error f
  | Except.ok x =>
    match pixel_coord tk event.y with
    | Except.error f => Except.error f
    | Except.ok y =>
      this.forward_mouse
        { type := MouseEventType.MOUSE_EVENT_PRESS, button := event.button,
          button_mask := event.buttons, x := x, y := y }

/-- The member `GLWidget::mouseReleaseEvent`. -/
def GLWidget.mouseReleaseEvent (tk : Toolkit) (this : GLWidget) (event : QMouseEvent) :
    Except Fault (GLWidget × List Call) :=
  match pixel_coord tk event.x with
  | Except.error f => Except.error f
  | Except.ok x =>
    match pixel_coord tk event.y with
    | Except.error f => Except.error f
    | Except.ok y =>
      this.forward_mouse
        { type := MouseEventType.MOUSE_EVENT_RELEASE, button := event.button,
          button_mask := event.buttons, x := x, y := y }

/-- The member `GLWidget::mouseMoveEvent`. -/
def GLWidget.mouseMoveEvent (tk : Toolkit) (this : GLWidget) (event : QMouseEvent) :
    Except Fault (GLWidget × List Call) :=
  match pixel_coord tk event.x with
  | Except.error f => Except.error f
  | Except.ok x =>
    match pixel_coord tk event.y with
    | Except.error f => Except.error f
    | Except.ok y =>
      this.forward_mouse
        { type := MouseEventType.MOUSE_EVENT_MOVE, button := event.button,
          button_mask := event.buttons, x := x, y := y }

/-- The member `GLWidget::wheelEvent`. -/
def GLWidget.wheelEvent (tk : Toolkit) (this : GLWidget) (event : QWheelEvent) :
    Except Fault (GLWidget × List Call) :=
  let type :=
    if event.delta < 0 then MouseEventType.MOUSE_EVENT_WHEEL_DOWN
    else MouseEventType.MOUSE_EVENT_WHEEL_UP
  match pixel_coord tk event.x with
  | Except.error f => Except.error f
  | Except.ok x =>
    match pixel_coord tk event.y with
    | Except.error f => Except.error f
    | Except.ok y =>
      this.forward_mouse
        { type := type, button := MOUSE_BUTTON_NONE,
          button_mask := event.buttons, x := x, y := y }

/-- The member `GLWidget::keyPressEvent`. -/
def GLWidget.keyPressEvent (this : GLWidget) (event : QKeyEvent) :
    Except Fault (GLWidget × List Call) :=
  if event.isAutoRepeat then Except.ok (this, [Call.QWidget_keyPressEvent event])
  else
    this.forward_key
      { type := KeyboardEventType.KEYBOARD_EVENT_PRESS, keycode := event.key }

/-- The member `GLWidget::keyReleaseEvent`. -/
def GLWidget.keyReleaseEvent (this : GLWidget) (event : QKeyEvent) :
    Except Fault (GLWidget × List Call) :=
  if event.isAutoRepeat then Except.ok (this, [Call.QWidget_keyReleaseEvent event])
  else
    this.forward_key
      { type := KeyboardEventType.KEYBOARD_EVENT_RELEASE, keycode := event.key }

/-! ## Drivers: sequences of calls on the widget -/

/-- One call the toolkit or the application makes on the widget's
paint-side interface. -/
inductive Op where
  | set_context (context : Option Context)
  | resizeGL (width height : Int)
  | paintGL
deriving DecidableEq

/-- Dispatch of one `Op` to the member function it names. -/
def GLWidget.apply (this : GLWidget) : Op → GLWidget × List Call
  | Op.set_context context => this.set_context context
  | Op.resizeGL width height => this.resizeGL width height
  | Op.paintGL => this.paintGL

/-- One call on the widget, appending what it issued to the trace so far. -/
def step (s : GLWidget × List Call) (op : Op) : GLWidget × List Call :=
  ((s.1.apply op).1, s.2 ++ (s.1.apply op).2)

/-- The widget and the trace after the calls `ops`, made in order on `w`. -/
def runFrom (w : GLWidget) (ops : List Op) : GLWidget × List Call :=
  ops.foldl step (w, [])

/-- The widget and the trace after the calls `ops`, made in order on a
freshly constructed widget. -/
def run (ops : List Op) : GLWidget × List Call :=
  runFrom GLWidget.construct ops

/-- One input event delivered by the toolkit, tagged with its handler. -/
inductive InputEvent where
  | mousePress (event : QMouseEvent)
  | mouseRelease (event : QMouseEvent)
  | mouseMove (event : QMouseEvent)
  | wheel (event : QWheelEvent)
  | keyPress (event : QKeyEvent)
  | keyRelease (event : QKeyEvent)
deriving DecidableEq

/-- Dispatch of one input event to its handler. -/
def GLWidget.handle (tk : Toolkit) (this : GLWidget) : InputEvent → Except Fault (GLWidget × List Call)
  | InputEvent.mousePress event => this.mousePressEvent tk event
  | InputEvent.mouseRelease event => this.mouseReleaseEvent tk event
  | InputEvent.mouseMove event => this.mouseMoveEvent tk event
  | InputEvent.wheel event => this.wheelEvent tk event
  | InputEvent.keyPress event => this.keyPressEvent event
  | InputEvent.keyRelease event => this.keyReleaseEvent event

/-- A burst of input events handled one after the other, with no timer
expiry in between; the first fault ends the burst. -/
def GLWidget.burst (tk : Toolkit) : GLWidget → List InputEvent → Except Fault (GLWidget × List Call)
  | this, [] => Except.ok (this, [])
  | this, ev :: evs =>
    match this.handle tk ev with
    | Except.error f => Except.error f
    | Except.ok r =>
      match GLWidget.burst tk r.1 evs with
      | Except.error f => Except.error f
      | Except.ok r2 => Except.ok (r2.1, r.2 ++ r2.2)

/-! ## Observations on a trace -/

/-- The `mouse_event` calls of a trace, in order. -/
def mouse_events : List Call → List (Context × MouseEvent)
  | [] => []
  | Call.mouse_event c e :: t => (c, e) :: mouse_events t
  | _ :: t => mouse_events t

/-- The `keyboard_event` calls of a trace, in order. -/
def keyboard_events : List Call → List (Context × KeyboardEvent)
  | [] => []
  | Call.keyboard_event c e :: t => (c, e) :: keyboard_events t
  | _ :: t => keyboard_events t

/-- The number of times a trace starts the repaint timer. -/
def armings (t : List Call) : Nat := t.count Call.timer_start

/-- Rounding toward zero, stated with floor and ceiling: the reference
against which `static_cast_int` is compared. -/
def toward_zero (q : ℚ) : Int := if 0 ≤ q then ⌊q⌋ else ⌈q⌉

/-- The native coordinate `v`, scaled by the pixel ratio of `tk` in `double`
arithmetic and rounded toward zero, fits a 32-bit `int`. -/
def fits_int (tk : Toolkit) (v : Int) : Prop :=
  match double_product tk.devicePixelRatio v with
  | some p => -2147483648 ≤ toward_zero p ∧ toward_zero p ≤ 2147483647
  | none => False

instance (tk : Toolkit) (v : Int) : Decidable (fits_int tk v) := by
  unfold fits_int
  cases double_product tk.devicePixelRatio v <;> simp only [] <;> infer_instance

/-- The event reaches `repaint_async`: every event except an auto-repeated
key event does. -/
def InputEvent.requests_repaint : InputEvent → Bool
  | InputEvent.keyPress event => !event.isAutoRepeat
  | InputEvent.keyRelease event => !event.isAutoRepeat
  | _ => true

/-- The coordinates of a mouse or wheel event fit an `int` after scaling;
key events carry no coordinates. -/
def InputEvent.fits (tk : Toolkit) : InputEvent → Prop
  | InputEvent.mousePress event => fits_int tk event.x ∧ fits_int tk event.y
  | InputEvent.mouseRelease event => fits_int tk event.x ∧ fits_int tk event.y
  | InputEvent.mouseMove event => fits_int tk event.x ∧ fits_int tk event.y
  | InputEvent.wheel event => fits_int tk event.x ∧ fits_int tk event.y
  | _ => True

/-- The widget is settled: an attached context whose `cx_init` flag is clear
is in `init_set`. -/
def settled (w : GLWidget) : Prop :=
  ∀ c, w.context = some c → w.cx_init = false → c ∈ w.init_set

/-- The history of context `c` in the run `ops`: some `paintGL` of the run,
made in the state `run ops1`, issued `init()` on `c` followed at once by
`resize` with the size recorded in that state; no `init()` and no
`paint()` on `c` came before, and no `init()` on `c` came after. -/
def init_history (ops : List Op) (c : Context) : Prop :=
  ∃ ops1 ops2 post, ops = ops1 ++ Op.paintGL :: ops2 ∧
    (run ops).2 = (run ops1).2 ++
      Call.init c :: Call.resize c (run ops1).1.gl_width (run ops1).1.gl_height :: post ∧
    Call.init c ∉ (run ops1).2 ∧ Call.paint c ∉ (run ops1).2 ∧ Call.init c ∉ post

/-- The toolkit of the examples: a Qt 5 build on a display with pixel ratio 2. -/
def example_toolkit : Toolkit := { QT_VERSION := 0x050000, devicePixelRatio := 2 }

/-- The widget of the examples: freshly constructed, then given context 1. -/
def example_widget : GLWidget := (GLWidget.construct.set_context (some 1)).1

/-- The burst of the examples: press, move, move, release. -/
def example_burst : List InputEvent :=
  [InputEvent.mousePress { button := 1, buttons := 1, x := 100, y := 50 },
   InputEvent.mouseMove { button := 0, buttons := 1, x := 101, y := 50 },
   InputEvent.mouseMove { button := 0, buttons := 1, x := 102, y := 51 },
   InputEvent.mouseRelease { button := 1, buttons := 0, x := 102, y := 51 }]

/-! ## Lemmas -/

theorem tdiv_num_den_eq_toward_zero (q : ℚ) : Int.tdiv q.num q.den = toward_zero q := by
  unfold toward_zero
  split_ifs with h
  · rw [Rat.floor_def]
    exact Int.tdiv_eq_ediv (Rat.num_nonneg.mpr h) (Int.ofNat_nonneg _)
  · have h1 : 0 ≤ -q := by linarith [not_le.mp h]
    have h2 : ⌈q⌉ = -⌊-q⌋ := by rw [Int.floor_neg, neg_neg]
    have h3 : (0 : ℤ) ≤ -q.num := by
      have := Rat.num_nonneg.mpr h1
      simpa using this
    rw [h2, Rat.floor_def, Rat.neg_num, Rat.neg_den,
      ← Int.tdiv_eq_ediv h3 (Int.ofNat_nonneg _), Int.neg_tdiv, neg_neg]

theorem static_cast_int_of_fits (q : ℚ)
    (h : -2147483648 ≤ toward_zero q ∧ toward_zero q ≤ 2147483647) :
    static_cast_int q = Except.ok (toward_zero q) := by
  unfold static_cast_int
  simp only [tdiv_num_den_eq_toward_zero]
  rw [if_pos h]

theorem fits_int_iff (tk : Toolkit) (v : Int) :
    fits_int tk v ↔ ∃ p, double_product tk.devicePixelRatio v = some p ∧
      -2147483648 ≤ toward_zero p ∧ toward_zero p ≤ 2147483647 := by
  unfold fits_int
  cases double_product tk.devicePixelRatio v <;> simp

theorem pixel_coord_of_product (tk : Toolkit) (v : Int) (p : ℚ)
    (hq : tk.QT_VERSION ≥ 0x050000) (hp : double_product tk.devicePixelRatio v = some p)
    (h : -2147483648 ≤ toward_zero p ∧ toward_zero p ≤ 2147483647) :
    pixel_coord tk v = Except.ok (toward_zero p) := by
  unfold pixel_coord
  rw [if_pos hq, hp]
  exact static_cast_int_of_fits _ h

theorem pixel_coord_of_fits (tk : Toolkit) (v : Int) (hq : tk.QT_VERSION ≥ 0x050000)
    (h : fits_int tk v) :
    ∃ p, double_product tk.devicePixelRatio v = some p ∧
      pixel_coord tk v = Except.ok (toward_zero p) := by
  obtain ⟨p, hp, hr⟩ := (fits_int_iff tk v).mp h
  exact ⟨p, hp, pixel_coord_of_product tk v p hq hp hr⟩

theorem pixel_coord_ok_of_fits (tk : Toolkit) (v : Int) (h : fits_int tk v) :
    ∃ a, pixel_coord tk v = Except.ok a := by
  by_cases hq : tk.QT_VERSION ≥ 0x050000
  · obtain ⟨p, _, hp⟩ := pixel_coord_of_fits tk v hq h
    exact ⟨_, hp⟩
  · exact ⟨v, by unfold pixel_coord; rw [if_neg hq]⟩

theorem round_half_even_intCast (z : Int) : round_half_even (z : ℚ) = z := by
  unfold round_half_even
  rw [Int.floor_intCast]
  simp

theorem binary64_exponent_le (q : ℚ) (j : Int) (hq : q ≠ 0) (hj : -1074 ≤ j)
    (h : |q| < 2 ^ (j + 53)) : binary64_exponent q ≤ j := by
  unfold binary64_exponent
  apply max_le _ hj
  have h2 : Int.log 2 |q| < j + 53 := by
    rw [← Int.lt_zpow_iff_log_lt (by norm_num) (abs_pos.mpr hq)]
    simpa using h
  omega

theorem binary64_exponent_eq (q : ℚ) (k : Int) (h1 : 2 ^ k ≤ |q|) (h2 : |q| < 2 ^ (k + 1))
    (hk : -1022 ≤ k) : binary64_exponent q = k - 52 := by
  have hpos : 0 < |q| := lt_of_lt_of_le (zpow_pos (by norm_num) k) h1
  have hl : Int.log 2 |q| = k := by
    apply le_antisymm
    · have := (Int.lt_zpow_iff_log_lt (R := ℚ) (b := 2) (by norm_num) hpos (x := k + 1)).mp
        (by simpa using h2)
      omega
    · exact (Int.zpow_le_iff_le_log (R := ℚ) (b := 2) (by norm_num) hpos).mp (by simpa using h1)
  unfold binary64_exponent
  rw [hl]
  omega

/-- A value `n * 2 ^ j` with `|n| < 2 ^ 53` and `-1074 ≤ j ≤ 971` is a binary64
value: rounding leaves it unchanged. -/
theorem to_double_of_representable (n j : Int) (hn : |n| < 2 ^ 53) (hj : -1074 ≤ j)
    (hj2 : j ≤ 971) : to_double ((n : ℚ) * 2 ^ j) = some ((n : ℚ) * 2 ^ j) := by
  unfold to_double
  by_cases h0 : (n : ℚ) * 2 ^ j = 0
  · rw [if_pos h0, h0]
  · rw [if_neg h0]
    have hn2 : |(n : ℚ)| < 2 ^ (53 : ℤ) := by
      have : ((|n| : Int) : ℚ) < ((2 ^ 53 : Int) : ℚ) := Int.cast_lt.mpr hn
      rw [Int.cast_abs] at this
      push_cast at this
      exact_mod_cast this
    have hp : (0 : ℚ) < 2 ^ j := zpow_pos (by norm_num) j
    have habs : |(n : ℚ) * 2 ^ j| < 2 ^ (j + 53) := by
      rw [abs_mul, abs_of_pos hp, zpow_add₀ (by norm_num : (2 : ℚ) ≠ 0), mul_comm]
      exact mul_lt_mul_of_pos_left hn2 hp
    have he := binary64_exponent_le _ j h0 hj habs
    generalize binary64_exponent ((n : ℚ) * 2 ^ j) = e at he
    obtain ⟨k, hk⟩ : ∃ k : ℕ, j = e + k := ⟨(j - e).toNat, by omega⟩
    have hpe : (0 : ℚ) < 2 ^ e := zpow_pos (by norm_num) e
    have hz : (n : ℚ) * 2 ^ j / 2 ^ e = ((n * 2 ^ k : Int) : ℚ) := by
      rw [hk, zpow_add₀ (by norm_num : (2 : ℚ) ≠ 0), zpow_natCast]
      field_simp
      ring
    have hd : ((round_half_even ((n : ℚ) * 2 ^ j / 2 ^ e) : Int) : ℚ) * 2 ^ e
        = (n : ℚ) * 2 ^ j := by
      rw [hz, round_half_even_intCast, ← hz]
      field_simp
    simp only [hd]
    rw [if_pos]
    calc |(n : ℚ) * 2 ^ j| < 2 ^ (j + 53) := habs
      _ ≤ 2 ^ (1024 : ℤ) := zpow_le_zpow_right₀ (by norm_num) (by omega)
      _ = 2 ^ 1024 := by norm_num

theorem to_double_intCast (n : Int) (hn : |n| < 2 ^ 53) : to_double (n : ℚ) = some (n : ℚ) := by
  have := to_double_of_representable n 0 hn (by norm_num) (by norm_num)
  simpa using this

/-- Rounding evaluated from the binade of `q`: with `2 ^ k ≤ |q| < 2 ^ (k + 1)`
in the normal range, the result is the rounded multiple of `2 ^ (k - 52)`. -/
theorem to_double_eq (q : ℚ) (k m : Int) (hq : q ≠ 0) (h1 : 2 ^ k ≤ |q|)
    (h2 : |q| < 2 ^ (k + 1)) (hk : -1022 ≤ k)
    (hm : round_half_even (q / 2 ^ (k - 52)) = m)
    (hlt : |(m : ℚ) * 2 ^ (k - 52)| < 2 ^ 1024) :
    to_double q = some ((m : ℚ) * 2 ^ (k - 52)) := by
  unfold to_double
  rw [if_neg hq, binary64_exponent_eq q k h1 h2 hk, hm]
  simp only []
  rw [if_pos hlt]

theorem toward_zero_intCast (z : Int) : toward_zero (z : ℚ) = z := by
  unfold toward_zero
  split_ifs
  · exact Int.floor_intCast z
  · exact Int.ceil_intCast z

/-- With a whole-number pixel ratio `k` the product is exact. -/
theorem double_product_int (k v : Int) (hk : |k| < 2 ^ 53) (hv : |v * k| < 2 ^ 53) :
    double_product (k : ℚ) v = some ((v * k : Int) : ℚ) := by
  unfold double_product
  rw [to_double_intCast k hk]
  simp only []
  rw [← Int.cast_mul]
  exact to_double_intCast (v * k) hv

theorem fits_int_of_int_ratio (tk : Toolkit) (k v : Int) (hr : tk.devicePixelRatio = (k : ℚ))
    (hk : |k| < 2 ^ 53) (h1 : -2147483648 ≤ v * k) (h2 : v * k ≤ 2147483647) :
    fits_int tk v := by
  rw [fits_int_iff, hr]
  refine ⟨_, double_product_int k v hk ?_, ?_⟩
  · rw [abs_lt]; constructor <;> omega
  · rw [toward_zero_intCast]; exact ⟨h1, h2⟩

theorem pixel_coord_of_int_ratio (tk : Toolkit) (k v : Int) (hq : tk.QT_VERSION ≥ 0x050000)
    (hr : tk.devicePixelRatio = (k : ℚ)) (hk : |k| < 2 ^ 53)
    (h1 : -2147483648 ≤ v * k) (h2 : v * k ≤ 2147483647) :
    pixel_coord tk v = Except.ok (v * k) := by
  have hp : double_product tk.devicePixelRatio v = some ((v * k : Int) : ℚ) := by
    rw [hr]
    exact double_product_int k v hk (by rw [abs_lt]; constructor <;> omega)
  have := pixel_coord_of_product tk v _ hq hp
    (by rw [toward_zero_intCast]; exact ⟨h1, h2⟩)
  rw [toward_zero_intCast] at this
  exact this

theorem fits_int_example_toolkit (v : Int) (h1 : -2147483648 ≤ v * 2)
    (h2 : v * 2 ≤ 2147483647) : fits_int example_toolkit v :=
  fits_int_of_int_ratio example_toolkit 2 v (by norm_num [example_toolkit]) (by norm_num) h1 h2

/-- The pixel ratio 3/2 and the native coordinate -1: the product -3/2 is a
binary64 value, so no rounding takes place. -/
theorem double_product_three_halves :
    double_product (3 / 2) (-1) = some (-(3 / 2)) := by
  have h1 : to_double (3 / 2) = some (3 / 2) := by
    have := to_double_of_representable 3 (-1) (by norm_num) (by norm_num) (by norm_num)
    norm_num at this
    exact this
  have h2 : to_double (-(3 / 2)) = some (-(3 / 2)) := by
    have := to_double_of_representable (-3) (-1) (by norm_num) (by norm_num) (by norm_num)
    norm_num at this
    exact this
  unfold double_product
  rw [h1]
  simp only []
  norm_num
  exact h2

theorem mouse_events_repaint_async (w : GLWidget) : mouse_events (w.repaint_async).2 = [] := by
  unfold GLWidget.repaint_async
  split_ifs <;> rfl

theorem keyboard_events_repaint_async (w : GLWidget) :
    keyboard_events (w.repaint_async).2 = [] := by
  unfold GLWidget.repaint_async
  split_ifs <;> rfl

theorem forward_mouse_of_context (w : GLWidget) (c : Context) (e : MouseEvent)
    (h : w.context = some c) :
    w.forward_mouse e =
      Except.ok ((w.repaint_async).1, Call.mouse_event c e :: (w.repaint_async).2) := by
  unfold GLWidget.forward_mouse
  rw [h]

theorem forward_key_of_context (w : GLWidget) (c : Context) (e : KeyboardEvent)
    (h : w.context = some c) :
    w.forward_key e =
      Except.ok ((w.repaint_async).1, Call.keyboard_event c e :: (w.repaint_async).2) := by
  unfold GLWidget.forward_key
  rw [h]

theorem runFrom_append (w : GLWidget) (ops : List Op) (op : Op) :
    runFrom w (ops ++ [op]) = step (runFrom w ops) op := by
  simp [runFrom, List.foldl_append]

theorem foldl_paintGL_settled (w : GLWidget) (c : Context) (hc : w.context = some c)
    (hi : w.cx_init = false) (k : Nat) (tr : List Call) :
    (List.replicate k Op.paintGL).foldl step (w, tr) =
      (w, tr ++ List.replicate k (Call.paint c)) := by
  induction k generalizing tr with
  | zero => simp
  | succ k ih =>
    have hs : step (w, tr) Op.paintGL = (w, tr ++ [Call.paint c]) := by
      simp [step, GLWidget.apply, GLWidget.paintGL, hc, hi]
    rw [List.replicate_succ, List.foldl_cons, hs, ih, List.replicate_succ]
    simp

theorem mousePressEvent_ok (tk : Toolkit) (w : GLWidget) (c : Context) (ev : QMouseEvent)
    (x y : Int) (h : w.context = some c) (hx : pixel_coord tk ev.x = Except.ok x)
    (hy : pixel_coord tk ev.y = Except.ok y) :
    w.mousePressEvent tk ev =
      Except.ok ((w.repaint_async).1,
        Call.mouse_event c
          { type := MouseEventType.MOUSE_EVENT_PRESS, button := ev.button,
            button_mask := ev.buttons, x := x, y := y } :: (w.repaint_async).2) := by
  unfold GLWidget.mousePressEvent
  simp only [hx, hy]
  exact forward_mouse_of_context w c _ h

theorem mouseReleaseEvent_ok (tk : Toolkit) (w : GLWidget) (c : Context) (ev : QMouseEvent)
    (x y : Int) (h : w.context = some c) (hx : pixel_coord tk ev.x = Except.ok x)
    (hy : pixel_coord tk ev.y = Except.ok y) :
    w.mouseReleaseEvent tk ev =
      Except.ok ((w.repaint_async).1,
        Call.mouse_event c
          { type := MouseEventType.MOUSE_EVENT_RELEASE, button := ev.button,
            button_mask := ev.buttons, x := x, y := y } :: (w.repaint_async).2) := by
  unfold GLWidget.mouseReleaseEvent
  simp only [hx, hy]
  exact forward_mouse_of_context w c _ h

theorem mouseMoveEvent_ok (tk : Toolkit) (w : GLWidget) (c : Context) (ev : QMouseEvent)
    (x y : Int) (h : w.context = some c) (hx : pixel_coord tk ev.x = Except.ok x)
    (hy : pixel_coord tk ev.y = Except.ok y) :
    w.mouseMoveEvent tk ev =
      Except.ok ((w.repaint_async).1,
        Call.mouse_event c
          { type := MouseEventType.MOUSE_EVENT_MOVE, button := ev.button,
            button_mask := ev.buttons, x := x, y := y } :: (w.repaint_async).2) := by
  unfold GLWidget.mouseMoveEvent
  simp only [hx, hy]
  exact forward_mouse_of_context w c _ h

theorem wheelEvent_ok (tk : Toolkit) (w : GLWidget) (c : Context) (ev : QWheelEvent)
    (x y : Int) (h : w.context = some c) (hx : pixel_coord tk ev.x = Except.ok x)
    (hy : pixel_coord tk ev.y = Except.ok y) :
    w.wheelEvent tk ev =
      Except.ok ((w.repaint_async).1,
        Call.mouse_event c
          { type := if ev.delta < 0 then MouseEventType.MOUSE_EVENT_WHEEL_DOWN
              else MouseEventType.MOUSE_EVENT_WHEEL_UP,
            button := MOUSE_BUTTON_NONE,
            button_mask := ev.buttons, x := x, y := y } :: (w.repaint_async).2) := by
  unfold GLWidget.wheelEvent
  simp only [hx, hy]
  exact forward_mouse_of_context w c _ h

theorem mouse_events_forwarded (w : GLWidget) (c : Context) (e : MouseEvent) :
    mouse_events (Call.mouse_event c e :: (w.repaint_async).2) = [(c, e)] := by
  simp [mouse_events, mouse_events_repaint_async]

/-- The binary64 value nearest to 6/5 is 5404319552844595 / 2^52; five times
it is rounded up to exactly 6. -/
theorem double_product_six_fifths :
    double_product (5404319552844595 / 4503599627370496) 5 = some 6 := by
  have h1 : to_double (5404319552844595 / 4503599627370496) =
      some (5404319552844595 / 4503599627370496) := by
    have := to_double_of_representable 5404319552844595 (-52) (by norm_num) (by norm_num)
      (by norm_num)
    norm_num at this
    exact this
  have h2 := to_double_eq ((5 : ℚ) * (5404319552844595 / 4503599627370496)) 2 6755399441055744
    (by norm_num) (by norm_num [abs_of_pos]) (by norm_num [abs_of_pos]) (by norm_num)
    (by unfold round_half_even; norm_num) (by norm_num [abs_of_pos])
  unfold double_product
  rw [h1]
  simp only []
  norm_num at h2 ⊢
  exact h2

/-- The binary64 value nearest to 23/20 is 5179139571476070 / 2^52; twenty
times it lies half-way between two binary64 values and goes to the even
one, exactly 23. -/
theorem double_product_twenty :
    double_product (5179139571476070 / 4503599627370496) 20 = some 23 := by
  have h1 : to_double (5179139571476070 / 4503599627370496) =
      some (5179139571476070 / 4503599627370496) := by
    have := to_double_of_representable 5179139571476070 (-52) (by norm_num) (by norm_num)
      (by norm_num)
    norm_num at this
    norm_num
    exact this
  have h2 := to_double_eq ((20 : ℚ) * (5179139571476070 / 4503599627370496)) 4 6473924464345088
    (by norm_num) (by norm_num [abs_of_pos]) (by norm_num [abs_of_pos]) (by norm_num)
    (by unfold round_half_even; norm_num) (by norm_num [abs_of_pos])
  unfold double_product
  rw [h1]
  simp only []
  norm_num at h2 ⊢
  exact h2

/-- The ratio 23/20 enters as the binary64 value nearest to it; a hundred
times that value is rounded to 8092405580431359 / 2^46, just below 115. -/
theorem double_product_hundred :
    double_product (23 / 20) 100 = some (8092405580431359 / 70368744177664) := by
  have h1 : to_double (23 / 20 : ℚ) = some (5179139571476070 / 4503599627370496) := by
    have h := to_double_eq (23 / 20 : ℚ) 0 5179139571476070
      (by norm_num) (by norm_num [abs_of_pos]) (by norm_num [abs_of_pos]) (by norm_num)
      (by unfold round_half_even; norm_num) (by norm_num [abs_of_pos])
    rw [h]
    norm_num
  have h2 := to_double_eq ((100 : ℚ) * (5179139571476070 / 4503599627370496)) 6
    8092405580431359
    (by norm_num) (by norm_num [abs_of_pos]) (by norm_num [abs_of_pos]) (by norm_num)
    (by unfold round_half_even; norm_num) (by norm_num [abs_of_pos])
  unfold double_product
  rw [h1]
  simp only []
  norm_num at h2 ⊢
  exact h2

/-- The product is rounded before the cast: under Qt 5 the coordinate 5 at the
binary64 ratio nearest 6/5 is forwarded as 6 although the exact product is
below 6; 20 at the binary64 ratio nearest 23/20 is forwarded as 23; and 100
at the ratio 23/20 is forwarded as 114. -/
theorem pixel_coord_rounds_in_double :
    pixel_coord { QT_VERSION := 0x050000, devicePixelRatio := 5404319552844595 / 4503599627370496 } 5 = Except.ok 6 ∧
    toward_zero ((5 : ℚ) * (5404319552844595 / 4503599627370496)) = 5 ∧
    pixel_coord { QT_VERSION := 0x050000, devicePixelRatio := 5179139571476070 / 4503599627370496 } 20 = Except.ok 23 ∧
    pixel_coord { QT_VERSION := 0x050000, devicePixelRatio := 23 / 20 } 100 =
      Except.ok 114 := by
  have t6 : toward_zero (6 : ℚ) = 6 := by
    have := toward_zero_intCast 6
    simpa using this
  have t23 : toward_zero (23 : ℚ) = 23 := by
    have := toward_zero_intCast 23
    simpa using this
  have t114 : toward_zero (8092405580431359 / 70368744177664 : ℚ) = 114 := by
    unfold toward_zero
    rw [if_pos (by norm_num), Int.floor_eq_iff]
    norm_num
  refine ⟨?_, ?_, ?_, ?_⟩
  · have := pixel_coord_of_product
      { QT_VERSION := 0x050000, devicePixelRatio := 5404319552844595 / 4503599627370496 } 5 6
      (by decide) double_product_six_fifths (by rw [t6]; decide)
    rw [t6] at this
    exact this
  · unfold toward_zero
    rw [if_pos (by norm_num), Int.floor_eq_iff]
    norm_num
  · have := pixel_coord_of_product
      { QT_VERSION := 0x050000, devicePixelRatio := 5179139571476070 / 4503599627370496 } 20 23
      (by decide) double_product_twenty (by rw [t23]; decide)
    rw [t23] at this
    exact this
  · have := pixel_coord_of_product
      { QT_VERSION := 0x050000, devicePixelRatio := 23 / 20 } 100 _
      (by decide) double_product_hundred (by rw [t114]; decide)
    rw [t114] at this
    exact this

/-! ## Properties of the paint path -/

/-- C1: on a widget whose `init_set` is empty (whatever its recorded width
and height), `set_context(C)` followed by `n >= 1` calls of `paintGL()`
issues exactly `init()`, `resize(gl_width, gl_height)` and then `paint()`
`n` times on `C`, in that order. -/
theorem C1_first_attach_trace (w : GLWidget) (c : Context) (n : Nat)
    (hfresh : w.init_set = ∅) (hn : 1 ≤ n) :
    (runFrom w (Op.set_context (some c) :: List.replicate n Op.paintGL)).2 =
      Call.init c :: Call.resize c w.gl_width w.gl_height ::
        List.replicate n (Call.paint c) := by
  obtain ⟨k, rfl⟩ : ∃ k, n = k + 1 := ⟨n - 1, by omega⟩
  have h1 : step (step (w, []) (Op.set_context (some c))) Op.paintGL =
      ({ w with context := some c, cx_init := false, init_set := insert c w.init_set },
        [Call.init c, Call.resize c w.gl_width w.gl_height, Call.paint c]) := by
    simp [step, GLWidget.apply, GLWidget.set_context, GLWidget.paintGL, hfresh]
  unfold runFrom
  rw [List.foldl_cons, List.replicate_succ, List.foldl_cons, h1,
    foldl_paintGL_settled _ c rfl rfl]
  simp [List.replicate_succ]

/-- C1 at the freshly constructed widget, context 7 and three paints. -/
theorem C1_first_attach_trace_witness :
    GLWidget.construct.init_set = ∅ ∧ 1 ≤ 3 ∧
    (runFrom GLWidget.construct
        (Op.set_context (some 7) :: List.replicate 3 Op.paintGL)).2 =
      Call.init 7 :: Call.resize 7 GLWidget.construct.gl_width GLWidget.construct.gl_height ::
        List.replicate 3 (Call.paint 7) :=
  ⟨rfl, by decide, C1_first_attach_trace GLWidget.construct 7 3 rfl (by decide)⟩

/-- C2, as the code has it: for a context `C` already in `init_set`,
`set_context(C)` followed by `paintGL()` calls neither `init()` nor
`resize()`; the only call is `C.paint()`, `cx_init` is cleared and the set
and the recorded size are unchanged. -/
theorem C2_reattach_paints_only (w : GLWidget) (c : Context) (hc : c ∈ w.init_set) :
    ((w.set_context (some c)).1).paintGL =
      ({ w with context := some c, cx_init := false }, [Call.paint c]) := by
  simp [GLWidget.set_context, GLWidget.paintGL, hc]

/-- C2 at the widget that has attached and painted context 7 once. -/
theorem C2_reattach_paints_only_witness :
    (7 : Context) ∈ (run [Op.set_context (some 7), Op.paintGL]).1.init_set ∧
    (((run [Op.set_context (some 7), Op.paintGL]).1.set_context (some 7)).1).paintGL =
      ({ (run [Op.set_context (some 7), Op.paintGL]).1 with
          context := some 7, cx_init := false }, [Call.paint 7]) :=
  ⟨by simp [run, runFrom, step, GLWidget.apply, GLWidget.set_context, GLWidget.paintGL,
      GLWidget.construct],
    C2_reattach_paints_only _ 7 (by
      simp [run, runFrom, step, GLWidget.apply, GLWidget.set_context, GLWidget.paintGL,
        GLWidget.construct])⟩

/-- C2 as stated fails: context 7 is initialised at 640 x 480 and detached,
the widget is resized to 800 x 600, and context 7 is attached again; the
next `paintGL()` issues `paint()` alone, with no `resize(800, 600)`. -/
theorem C2_reattach_no_resize :
    (7 : Context) ∈ (run [Op.resizeGL 640 480, Op.set_context (some 7), Op.paintGL,
        Op.set_context none, Op.resizeGL 800 600]).1.init_set ∧
    (run [Op.resizeGL 640 480, Op.set_context (some 7), Op.paintGL,
        Op.set_context none, Op.resizeGL 800 600]).1.gl_width = 800 ∧
    (run [Op.resizeGL 640 480, Op.set_context (some 7), Op.paintGL,
        Op.set_context none, Op.resizeGL 800 600]).1.gl_height = 600 ∧
    ((((run [Op.resizeGL 640 480, Op.set_context (some 7), Op.paintGL,
        Op.set_context none, Op.resizeGL 800 600]).1.set_context (some 7)).1).paintGL).2 =
      [Call.paint 7] ∧
    Call.resize 7 800 600 ∉
      ((((run [Op.resizeGL 640 480, Op.set_context (some 7), Op.paintGL,
        Op.set_context none, Op.resizeGL 800 600]).1.set_context (some 7)).1).paintGL).2 := by
  simp [run, runFrom, step, GLWidget.apply, GLWidget.set_context, GLWidget.paintGL,
    GLWidget.resizeGL, GLWidget.construct]

/-- C4: with no context attached, `paintGL()` issues no call and leaves the
widget unchanged, and `resizeGL(w, h)` issues no call and changes only
`gl_width` and `gl_height`, to `w` and `h`. -/
theorem C4_no_context_paint_resize (w : GLWidget) (h : w.context = none) :
    w.paintGL = (w, []) ∧
    ∀ width height : Int,
      w.resizeGL width height = ({ w with gl_width := width, gl_height := height }, []) := by
  constructor
  · simp [GLWidget.paintGL, h]
  · intro width height
    simp [GLWidget.resizeGL, h]

/-- C4 at the freshly constructed widget. -/
theorem C4_no_context_paint_resize_witness :
    GLWidget.construct.context = none ∧
    GLWidget.construct.paintGL = (GLWidget.construct, []) ∧
    ∀ width height : Int,
      GLWidget.construct.resizeGL width height =
        ({ GLWidget.construct with gl_width := width, gl_height := height }, []) :=
  ⟨rfl, C4_no_context_paint_resize GLWidget.construct rfl⟩

/-- C5, the code at the failing input: on a freshly constructed widget (no
context attached) every mouse and wheel event ends in a fault, and every key
event that is not auto-repeated ends in a null dereference; a left click at
(10, 10) under Qt 5 with pixel ratio 1 is a null dereference. -/
theorem C5_handlers_fault_without_context :
    (∀ (tk : Toolkit) (ev : QMouseEvent),
      (∃ f, GLWidget.construct.mousePressEvent tk ev = Except.error f) ∧
      (∃ f, GLWidget.construct.mouseReleaseEvent tk ev = Except.error f) ∧
      (∃ f, GLWidget.construct.mouseMoveEvent tk ev = Except.error f)) ∧
    (∀ (tk : Toolkit) (ev : QWheelEvent),
      ∃ f, GLWidget.construct.wheelEvent tk ev = Except.error f) ∧
    (∀ key : Int,
      GLWidget.construct.keyPressEvent { key := key, isAutoRepeat := false } =
        Except.error Fault.null_dereference ∧
      GLWidget.construct.keyReleaseEvent { key := key, isAutoRepeat := false } =
        Except.error Fault.null_dereference) ∧
    GLWidget.construct.mousePressEvent { QT_VERSION := 0x050000, devicePixelRatio := 1 }
        { button := 1, buttons := 1, x := 10, y := 10 } =
      Except.error Fault.null_dereference := by
  refine ⟨?_, ?_, ?_, ?_⟩
  · intro tk ev
    refine ⟨?_, ?_, ?_⟩
    · unfold GLWidget.mousePressEvent
      cases pixel_coord tk ev.x <;> cases pixel_coord tk ev.y <;>
        simp [GLWidget.forward_mouse, GLWidget.construct]
    · unfold GLWidget.mouseReleaseEvent
      cases pixel_coord tk ev.x <;> cases pixel_coord tk ev.y <;>
        simp [GLWidget.forward_mouse, GLWidget.construct]
    · unfold GLWidget.mouseMoveEvent
      cases pixel_coord tk ev.x <;> cases pixel_coord tk ev.y <;>
        simp [GLWidget.forward_mouse, GLWidget.construct]
  · intro tk ev
    unfold GLWidget.wheelEvent
    cases pixel_coord tk ev.x <;> cases pixel_coord tk ev.y <;>
      simp [GLWidget.forward_mouse, GLWidget.construct]
  · intro key
    simp [GLWidget.keyPressEvent, GLWidget.keyReleaseEvent, GLWidget.forward_key,
      GLWidget.construct]
  · have hp : pixel_coord { QT_VERSION := 0x050000, devicePixelRatio := 1 } 10 =
        Except.ok 10 := by
      have := pixel_coord_of_int_ratio { QT_VERSION := 0x050000, devicePixelRatio := 1 } 1 10
        (by decide) (by norm_num) (by norm_num) (by norm_num) (by norm_num)
      simpa using this
    unfold GLWidget.mousePressEvent
    simp only [hp]
    simp [GLWidget.forward_mouse, GLWidget.construct]

/-- C7, as the code has it: with a context attached, a key event is
forwarded to `keyboard_event` exactly once, with the matching kind and the
event's keycode, if and only if it is not auto-repeated; an auto-repeated
key-press and an auto-repeated key-release are never forwarded. -/
theorem C7_key_forwarding (w : GLWidget) (c : Context) (ev : QKeyEvent)
    (h : w.context = some c) :
    (∃ w1 tr, w.keyPressEvent ev = Except.ok (w1, tr) ∧
      keyboard_events tr =
        if ev.isAutoRepeat then []
        else [(c, { type := KeyboardEventType.KEYBOARD_EVENT_PRESS, keycode := ev.key })]) ∧
    (∃ w1 tr, w.keyReleaseEvent ev = Except.ok (w1, tr) ∧
      keyboard_events tr =
        if ev.isAutoRepeat then []
        else [(c, { type := KeyboardEventType.KEYBOARD_EVENT_RELEASE, keycode := ev.key })]) := by
  constructor
  · unfold GLWidget.keyPressEvent
    by_cases ha : ev.isAutoRepeat = true
    · exact ⟨_, _, by rw [if_pos ha], by simp [ha, keyboard_events]⟩
    · refine ⟨_, _, by rw [if_neg ha, forward_key_of_context w c _ h], ?_⟩
      simp [ha, keyboard_events, keyboard_events_repaint_async]
  · unfold GLWidget.keyReleaseEvent
    by_cases ha : ev.isAutoRepeat = true
    · exact ⟨_, _, by rw [if_pos ha], by simp [ha, keyboard_events]⟩
    · refine ⟨_, _, by rw [if_neg ha, forward_key_of_context w c _ h], ?_⟩
      simp [ha, keyboard_events, keyboard_events_repaint_async]

/-- C7 at the example widget and a key event of key 65 that is not auto-repeated. -/
theorem C7_key_forwarding_witness :
    (GLWidget.construct.set_context (some 1)).1.context = some 1 ∧
    ((∃ w1 tr, (GLWidget.construct.set_context (some 1)).1.keyPressEvent
          { key := 65, isAutoRepeat := false } = Except.ok (w1, tr) ∧
      keyboard_events tr =
        if (false : Bool) then []
        else [(1, { type := KeyboardEventType.KEYBOARD_EVENT_PRESS, keycode := 65 })]) ∧
    (∃ w1 tr, (GLWidget.construct.set_context (some 1)).1.keyReleaseEvent
          { key := 65, isAutoRepeat := false } = Except.ok (w1, tr) ∧
      keyboard_events tr =
        if (false : Bool) then []
        else [(1, { type := KeyboardEventType.KEYBOARD_EVENT_RELEASE, keycode := 65 })])) :=
  ⟨rfl, C7_key_forwarding (GLWidget.construct.set_context (some 1)).1 1
    { key := 65, isAutoRepeat := false } rfl⟩

/-- C7 as stated fails: with context 1 attached, an auto-repeated
key-release of key 65 is handed to the base class and nothing is forwarded
to `keyboard_event`. -/
theorem C7_autorepeat_release_not_forwarded :
    (GLWidget.construct.set_context (some 1)).1.keyReleaseEvent
        { key := 65, isAutoRepeat := true } =
      Except.ok ((GLWidget.construct.set_context (some 1)).1,
        [Call.QWidget_keyReleaseEvent { key := 65, isAutoRepeat := true }]) ∧
    keyboard_events [Call.QWidget_keyReleaseEvent { key := 65, isAutoRepeat := true }] = [] := by
  simp [GLWidget.keyReleaseEvent, keyboard_events]

/-- C8: with a context attached and coordinates that fit an `int`, for every
native wheel delta `d` `wheelEvent` forwards exactly one mouse event, whose
kind is wheel-down if `d < 0` and wheel-up if `d >= 0`, and whose button is
`MOUSE_BUTTON_NONE`. -/
theorem C8_wheel_direction (tk : Toolkit) (w : GLWidget) (c : Context) (ev : QWheelEvent)
    (h : w.context = some c) (hx : fits_int tk ev.x) (hy : fits_int tk ev.y) :
    ∃ w1 tr e, w.wheelEvent tk ev = Except.ok (w1, tr) ∧ mouse_events tr = [(c, e)] ∧
      (ev.delta < 0 → e.type = MouseEventType.MOUSE_EVENT_WHEEL_DOWN) ∧
      (0 ≤ ev.delta → e.type = MouseEventType.MOUSE_EVENT_WHEEL_UP) ∧
      e.button = MOUSE_BUTTON_NONE := by
  obtain ⟨x, hx1⟩ := pixel_coord_ok_of_fits tk ev.x hx
  obtain ⟨y, hy1⟩ := pixel_coord_ok_of_fits tk ev.y hy
  refine ⟨_, _, _, wheelEvent_ok tk w c ev x y h hx1 hy1, mouse_events_forwarded w c _,
    ?_, ?_, rfl⟩
  · intro hd
    simp [hd]
  · intro hd
    simp [not_lt.mpr hd]

/-- C8 at the example widget under pixel ratio 2, at the position (100, 50):
the delta -5 gives wheel-down, the deltas 3 and 0 give wheel-up. -/
theorem C8_wheel_direction_witness :
    example_widget.context = some 1 ∧
    fits_int example_toolkit 100 ∧ fits_int example_toolkit 50 ∧
    (∃ w1 tr e,
      example_widget.wheelEvent example_toolkit
          { delta := -5, buttons := 0, x := 100, y := 50 } = Except.ok (w1, tr) ∧
      mouse_events tr = [(1, e)] ∧ e.type = MouseEventType.MOUSE_EVENT_WHEEL_DOWN ∧
      e.button = MOUSE_BUTTON_NONE) ∧
    (∃ w1 tr e,
      example_widget.wheelEvent example_toolkit
          { delta := 3, buttons := 0, x := 100, y := 50 } = Except.ok (w1, tr) ∧
      mouse_events tr = [(1, e)] ∧ e.type = MouseEventType.MOUSE_EVENT_WHEEL_UP ∧
      e.button = MOUSE_BUTTON_NONE) ∧
    (∃ w1 tr e,
      example_widget.wheelEvent example_toolkit
          { delta := 0, buttons := 0, x := 100, y := 50 } = Except.ok (w1, tr) ∧
      mouse_events tr = [(1, e)] ∧ e.type = MouseEventType.MOUSE_EVENT_WHEEL_UP ∧
      e.button = MOUSE_BUTTON_NONE) := by
  have hfx : fits_int example_toolkit 100 :=
    fits_int_example_toolkit 100 (by norm_num) (by norm_num)
  have hfy : fits_int example_toolkit 50 :=
    fits_int_example_toolkit 50 (by norm_num) (by norm_num)
  obtain ⟨w1, tr1, e1, a1, b1, c1, _, d1⟩ :=
    C8_wheel_direction example_toolkit example_widget 1
      { delta := -5, buttons := 0, x := 100, y := 50 } rfl hfx hfy
  obtain ⟨w2, tr2, e2, a2, b2, _, c2, d2⟩ :=
    C8_wheel_direction example_toolkit example_widget 1
      { delta := 3, buttons := 0, x := 100, y := 50 } rfl hfx hfy
  obtain ⟨w3, tr3, e3, a3, b3, _, c3, d3⟩ :=
    C8_wheel_direction example_toolkit example_widget 1
      { delta := 0, buttons := 0, x := 100, y := 50 } rfl hfx hfy
  exact ⟨rfl, hfx, hfy, ⟨w1, tr1, e1, a1, b1, c1 (by decide), d1⟩,
    ⟨w2, tr2, e2, a2, b2, c2 (by decide), d2⟩, ⟨w3, tr3, e3, a3, b3, c3 (by decide), d3⟩⟩

/-- C6, as the code has it: in a Qt 5 build with a context attached, for every
pixel ratio `r` and every native coordinate `(x, y)` whose scaled value fits
an `int`, the three mouse handlers and the wheel handler forward one event
whose coordinates are the products `x*r` and `y*r` as computed in `double`
arithmetic (each rounded to the nearest binary64 value), rounded toward
zero: the floor when the product is non-negative, the ceiling when it is
negative. -/
theorem C6_coordinates_toward_zero (tk : Toolkit) (w : GLWidget) (c : Context)
    (button buttons delta x y : Int)
    (hq : tk.QT_VERSION ≥ 0x050000) (h : w.context = some c)
    (hx : fits_int tk x) (hy : fits_int tk y) :
    ∃ px py, double_product tk.devicePixelRatio x = some px ∧
      double_product tk.devicePixelRatio y = some py ∧
    (∃ w1 tr e, w.mousePressEvent tk { button := button, buttons := buttons, x := x, y := y } =
        Except.ok (w1, tr) ∧ mouse_events tr = [(c, e)] ∧
      e.x = (if 0 ≤ px then ⌊px⌋ else ⌈px⌉) ∧ e.y = (if 0 ≤ py then ⌊py⌋ else ⌈py⌉)) ∧
    (∃ w1 tr e, w.mouseReleaseEvent tk { button := button, buttons := buttons, x := x, y := y } =
        Except.ok (w1, tr) ∧ mouse_events tr = [(c, e)] ∧
      e.x = (if 0 ≤ px then ⌊px⌋ else ⌈px⌉) ∧ e.y = (if 0 ≤ py then ⌊py⌋ else ⌈py⌉)) ∧
    (∃ w1 tr e, w.mouseMoveEvent tk { button := button, buttons := buttons, x := x, y := y } =
        Except.ok (w1, tr) ∧ mouse_events tr = [(c, e)] ∧
      e.x = (if 0 ≤ px then ⌊px⌋ else ⌈px⌉) ∧ e.y = (if 0 ≤ py then ⌊py⌋ else ⌈py⌉)) ∧
    (∃ w1 tr e, w.wheelEvent tk { delta := delta, buttons := buttons, x := x, y := y } =
        Except.ok (w1, tr) ∧ mouse_events tr = [(c, e)] ∧
      e.x = (if 0 ≤ px then ⌊px⌋ else ⌈px⌉) ∧ e.y = (if 0 ≤ py then ⌊py⌋ else ⌈py⌉)) := by
  obtain ⟨px, hpx, hx1⟩ := pixel_coord_of_fits tk x hq hx
  obtain ⟨py, hpy, hy1⟩ := pixel_coord_of_fits tk y hq hy
  refine ⟨px, py, hpx, hpy, ?_, ?_, ?_, ?_⟩
  · exact ⟨_, _, _, mousePressEvent_ok tk w c _ _ _ h hx1 hy1,
      mouse_events_forwarded w c _, rfl, rfl⟩
  · exact ⟨_, _, _, mouseReleaseEvent_ok tk w c _ _ _ h hx1 hy1,
      mouse_events_forwarded w c _, rfl, rfl⟩
  · exact ⟨_, _, _, mouseMoveEvent_ok tk w c _ _ _ h hx1 hy1,
      mouse_events_forwarded w c _, rfl, rfl⟩
  · exact ⟨_, _, _, wheelEvent_ok tk w c _ _ _ h hx1 hy1,
      mouse_events_forwarded w c _, rfl, rfl⟩

/-- C6 as stated fails: under Qt 5 with pixel ratio 3/2, a move event at the
native position (-1, -1) is forwarded with coordinates (-1, -1), while the
floor of -3/2 is -2. -/
theorem C6_negative_coordinate_not_floor :
    (GLWidget.construct.set_context (some 1)).1.mouseMoveEvent
        { QT_VERSION := 0x050000, devicePixelRatio := 3 / 2 }
        { button := 0, buttons := 1, x := -1, y := -1 } =
      Except.ok ({ (GLWidget.construct.set_context (some 1)).1 with repaint_timer := true },
        [Call.mouse_event 1
          { type := MouseEventType.MOUSE_EVENT_MOVE, button := 0, button_mask := 1,
            x := -1, y := -1 },
         Call.timer_start]) ∧
    ⌊(((-1 : Int) : ℚ)) * (3 / 2 : ℚ)⌋ = -2 := by
  have hv : toward_zero (-(3 / 2) : ℚ) = -1 := by
    unfold toward_zero
    rw [if_neg (by norm_num), Int.ceil_eq_iff]
    norm_num
  have hp := pixel_coord_of_product { QT_VERSION := 0x050000, devicePixelRatio := 3 / 2 } (-1)
    (-(3 / 2)) (by decide) double_product_three_halves (by rw [hv]; decide)
  rw [hv] at hp
  constructor
  · rw [mouseMoveEvent_ok _ _ 1 _ (-1) (-1) rfl hp hp]
    rfl
  · norm_num

/-- C6 at the example widget under pixel ratio 2: the native position
(100, 50) is forwarded as (200, 100). -/
theorem C6_coordinates_toward_zero_witness :
    example_toolkit.QT_VERSION ≥ 0x050000 ∧ example_widget.context = some 1 ∧
    fits_int example_toolkit 100 ∧ fits_int example_toolkit 50 ∧
    ∃ w1 tr e,
      example_widget.mousePressEvent example_toolkit
          { button := 1, buttons := 1, x := 100, y := 50 } = Except.ok (w1, tr) ∧
      mouse_events tr = [(1, e)] ∧ e.x = 200 ∧ e.y = 100 := by
  have hfx : fits_int example_toolkit 100 :=
    fits_int_example_toolkit 100 (by norm_num) (by norm_num)
  have hfy : fits_int example_toolkit 50 :=
    fits_int_example_toolkit 50 (by norm_num) (by norm_num)
  obtain ⟨px, py, hpx, hpy, ⟨w1, tr, e, h1, h2, h3, h4⟩, _⟩ :=
    C6_coordinates_toward_zero example_toolkit example_widget 1 1 1 0 100 50
      (by decide) rfl hfx hfy
  have hx : px = 200 := by
    have := double_product_int 2 100 (by norm_num) (by norm_num)
    norm_num at this
    have h5 : example_toolkit.devicePixelRatio = 2 := rfl
    rw [h5, this] at hpx
    exact (Option.some.inj hpx).symm
  have hy : py = 100 := by
    have := double_product_int 2 50 (by norm_num) (by norm_num)
    norm_num at this
    have h5 : example_toolkit.devicePixelRatio = 2 := rfl
    rw [h5, this] at hpy
    exact (Option.some.inj hpy).symm
  subst hx hy
  refine ⟨by decide, rfl, hfx, hfy, w1, tr, e, h1, h2, ?_, ?_⟩
  · rw [h3]; norm_num
  · rw [h4]; norm_num

theorem run_append (ops : List Op) (op : Op) : run (ops ++ [op]) = step (run ops) op :=
  runFrom_append _ ops op

theorem settled_construct : settled GLWidget.construct := by
  intro c h
  simp [GLWidget.construct] at h

theorem paintGL_cases (w : GLWidget) :
    (w.context = none ∧ w.paintGL = (w, [])) ∨
    (∃ d, w.context = some d ∧ w.cx_init = true ∧ d ∉ w.init_set ∧
      w.paintGL = ({ w with init_set := insert d w.init_set, cx_init := false },
        [Call.init d, Call.resize d w.gl_width w.gl_height, Call.paint d])) ∨
    (∃ d, w.context = some d ∧ w.cx_init = true ∧ d ∈ w.init_set ∧
      w.paintGL = ({ w with cx_init := false }, [Call.paint d])) ∨
    (∃ d, w.context = some d ∧ w.cx_init = false ∧ w.paintGL = (w, [Call.paint d])) := by
  cases hw : w.context with
  | none => exact Or.inl ⟨rfl, by simp [GLWidget.paintGL, hw]⟩
  | some d =>
    by_cases h1 : w.cx_init = true
    · by_cases h2 : d ∈ w.init_set
      · exact Or.inr (Or.inr (Or.inl ⟨d, rfl, h1, h2, by simp [GLWidget.paintGL, hw, h1, h2]⟩))
      · exact Or.inr (Or.inl ⟨d, rfl, h1, h2, by simp [GLWidget.paintGL, hw, h1, h2]⟩)
    · have h3 : w.cx_init = false := by simpa using h1
      exact Or.inr (Or.inr (Or.inr ⟨d, rfl, h3, by simp [GLWidget.paintGL, hw, h3]⟩))

theorem resizeGL_cases (w : GLWidget) (width height : Int) :
    (w.context = none ∧
      w.resizeGL width height = ({ w with gl_width := width, gl_height := height }, [])) ∨
    (∃ d, w.context = some d ∧
      w.resizeGL width height =
        ({ w with gl_width := width, gl_height := height }, [Call.resize d width height])) := by
  cases hw : w.context with
  | none => exact Or.inl ⟨rfl, by simp [GLWidget.resizeGL, hw]⟩
  | some d => exact Or.inr ⟨d, rfl, by simp [GLWidget.resizeGL, hw]⟩

theorem settled_apply (w : GLWidget) (op : Op) (h : settled w) : settled (w.apply op).1 := by
  intro c hc hi
  cases op with
  | set_context context => simp [GLWidget.apply, GLWidget.set_context] at hi
  | resizeGL width height =>
    rcases resizeGL_cases w width height with ⟨hw, hr⟩ | ⟨d, hw, hr⟩ <;>
      simp only [GLWidget.apply, hr] at hc hi ⊢ <;> exact h c hc hi
  | paintGL =>
    rcases paintGL_cases w with ⟨hw, hr⟩ | ⟨d, hw, h1, h2, hr⟩ | ⟨d, hw, h1, h2, hr⟩ |
      ⟨d, hw, h1, hr⟩ <;> simp only [GLWidget.apply, hr] at hc hi ⊢
    · exact h c hc hi
    · rw [hw] at hc
      cases hc
      simp
    · rw [hw] at hc
      cases hc
      exact h2
    · exact h c hc hi

theorem settled_run (ops : List Op) : settled (run ops).1 := by
  induction ops using List.reverseRecOn with
  | nil => exact settled_construct
  | append_singleton ops op ih =>
    rw [run_append]
    exact settled_apply _ op ih

theorem init_set_mono (w : GLWidget) (op : Op) (c : Context) (h : c ∈ w.init_set) :
    c ∈ (w.apply op).1.init_set := by
  cases op with
  | set_context context => exact h
  | resizeGL width height =>
    rcases resizeGL_cases w width height with ⟨hw, hr⟩ | ⟨d, hw, hr⟩ <;>
      simp only [GLWidget.apply, hr] <;> exact h
  | paintGL =>
    rcases paintGL_cases w with ⟨hw, hr⟩ | ⟨d, hw, h1, h2, hr⟩ | ⟨d, hw, h1, h2, hr⟩ |
      ⟨d, hw, h1, hr⟩ <;> simp only [GLWidget.apply, hr]
    · exact h
    · exact Finset.mem_insert_of_mem h
    · exact h
    · exact h

theorem init_issued (w : GLWidget) (op : Op) (c : Context)
    (h : Call.init c ∈ (w.apply op).2) :
    c ∉ w.init_set ∧ op = Op.paintGL ∧
      (w.apply op).2 = [Call.init c, Call.resize c w.gl_width w.gl_height, Call.paint c] := by
  cases op with
  | set_context context => simp [GLWidget.apply, GLWidget.set_context] at h
  | resizeGL width height =>
    rcases resizeGL_cases w width height with ⟨hw, hr⟩ | ⟨d, hw, hr⟩ <;>
      simp [GLWidget.apply, hr] at h
  | paintGL =>
    rcases paintGL_cases w with ⟨hw, hr⟩ | ⟨d, hw, h1, h2, hr⟩ | ⟨d, hw, h1, h2, hr⟩ |
      ⟨d, hw, h1, hr⟩ <;> simp [GLWidget.apply, hr] at h ⊢
    subst h
    exact ⟨h2, rfl⟩

theorem init_set_grows_by_init (w : GLWidget) (op : Op) (c : Context)
    (h : c ∈ (w.apply op).1.init_set) :
    c ∈ w.init_set ∨ Call.init c ∈ (w.apply op).2 := by
  cases op with
  | set_context context => exact Or.inl h
  | resizeGL width height =>
    rcases resizeGL_cases w width height with ⟨hw, hr⟩ | ⟨d, hw, hr⟩ <;>
      simp only [GLWidget.apply, hr] at h <;> exact Or.inl h
  | paintGL =>
    rcases paintGL_cases w with ⟨hw, hr⟩ | ⟨d, hw, h1, h2, hr⟩ | ⟨d, hw, h1, h2, hr⟩ |
      ⟨d, hw, h1, hr⟩ <;> simp only [GLWidget.apply, hr] at h ⊢
    · exact Or.inl h
    · rcases Finset.mem_insert.mp h with h | h
      · subst h; exact Or.inr (by simp)
      · exact Or.inl h
    · exact Or.inl h
    · exact Or.inl h

theorem paint_issued (w : GLWidget) (op : Op) (c : Context) (hs : settled w)
    (h : Call.paint c ∈ (w.apply op).2) : c ∈ (w.apply op).1.init_set := by
  cases op with
  | set_context context => simp [GLWidget.apply, GLWidget.set_context] at h
  | resizeGL width height =>
    rcases resizeGL_cases w width height with ⟨hw, hr⟩ | ⟨d, hw, hr⟩ <;>
      simp [GLWidget.apply, hr] at h
  | paintGL =>
    rcases paintGL_cases w with ⟨hw, hr⟩ | ⟨d, hw, h1, h2, hr⟩ | ⟨d, hw, h1, h2, hr⟩ |
      ⟨d, hw, h1, hr⟩ <;> simp [GLWidget.apply, hr] at h ⊢
    · subst h; exact Or.inl rfl
    · subst h; exact h2
    · subst h; exact hs _ hw h1

theorem init_history_extend (ops : List Op) (op : Op) (c : Context)
    (hh : init_history ops c) (hn : Call.init c ∉ ((run ops).1.apply op).2) :
    init_history (ops ++ [op]) c := by
  obtain ⟨ops1, ops2, post, h1, h2, h3, h4, h5⟩ := hh
  refine ⟨ops1, ops2 ++ [op], post ++ ((run ops).1.apply op).2, ?_, ?_, h3, h4, ?_⟩
  · rw [h1]; simp
  · rw [run_append]
    simp only [step]
    rw [h2]
    simp
  · intro hm
    rcases List.mem_append.mp hm with hm | hm
    · exact h5 hm
    · exact hn hm

theorem init_history_start (ops : List Op) (c : Context)
    (hi : Call.init c ∈ ((run ops).1.apply Op.paintGL).2)
    (h3 : Call.init c ∉ (run ops).2) (h4 : Call.paint c ∉ (run ops).2) :
    init_history (ops ++ [Op.paintGL]) c := by
  obtain ⟨_, _, he⟩ := init_issued _ _ _ hi
  refine ⟨ops, [], [Call.paint c], rfl, ?_, h3, h4, by simp⟩
  rw [run_append]
  simp only [step]
  rw [he]

theorem run_invariant (ops : List Op) (c : Context) :
    (c ∈ (run ops).1.init_set → init_history ops c) ∧
    (c ∉ (run ops).1.init_set → Call.init c ∉ (run ops).2 ∧ Call.paint c ∉ (run ops).2) := by
  induction ops using List.reverseRecOn with
  | nil =>
    constructor
    · intro h
      simp [run, runFrom, GLWidget.construct] at h
    · intro _
      simp [run, runFrom]
  | append_singleton ops op ih =>
    obtain ⟨ih1, ih2⟩ := ih
    have hs := settled_run ops
    constructor
    · intro h
      rw [run_append] at h
      simp only [step] at h
      by_cases hc : c ∈ (run ops).1.init_set
      · exact init_history_extend ops op c (ih1 hc)
          (fun hm => (init_issued _ _ _ hm).1 hc)
      · rcases init_set_grows_by_init _ _ _ h with h | h
        · exact absurd h hc
        · obtain ⟨_, hop, _⟩ := init_issued _ _ _ h
          subst hop
          exact init_history_start ops c h (ih2 hc).1 (ih2 hc).2
    · intro h
      rw [run_append] at h ⊢
      simp only [step] at h ⊢
      have hc : c ∉ (run ops).1.init_set := fun hm => h (init_set_mono _ op c hm)
      constructor
      · intro hm
        rcases List.mem_append.mp hm with hm | hm
        · exact (ih2 hc).1 hm
        · exact h (paint_issued _ _ _ hs (by
            obtain ⟨_, _, he⟩ := init_issued _ _ _ hm
            rw [he]; simp))
      · intro hm
        rcases List.mem_append.mp hm with hm | hm
        · exact (ih2 hc).2 hm
        · exact h (paint_issued _ _ _ hs hm)

/-- C3: after any sequence of `set_context`, `resizeGL` and `paintGL` calls
on a freshly constructed widget, a context in `init_set` has had `init()`
issued exactly once, by a `paintGL` of the run, followed at once by
`resize` with the size recorded when that `paintGL` began, with no
`paint()` on the context before it; a context not in `init_set` has had
`init()` issued zero times. -/
theorem C3_init_once_before_paint (ops : List Op) (c : Context) :
    (c ∈ (run ops).1.init_set →
      (run ops).2.count (Call.init c) = 1 ∧
      ∃ ops1 ops2 post, ops = ops1 ++ Op.paintGL :: ops2 ∧
        (run ops).2 = (run ops1).2 ++
          Call.init c :: Call.resize c (run ops1).1.gl_width (run ops1).1.gl_height :: post ∧
        Call.init c ∉ (run ops1).2 ∧ Call.paint c ∉ (run ops1).2 ∧ Call.init c ∉ post) ∧
    (c ∉ (run ops).1.init_set → (run ops).2.count (Call.init c) = 0) := by
  constructor
  · intro h
    have hh := (run_invariant ops c).1 h
    refine ⟨?_, hh⟩
    obtain ⟨ops1, ops2, post, _, h2, h3, _, h5⟩ := hh
    rw [h2, List.count_append, List.count_cons_self, List.count_cons_of_ne (by simp),
      List.count_eq_zero.mpr h3, List.count_eq_zero.mpr h5]
  · intro h
    exact List.count_eq_zero.mpr ((run_invariant ops c).2 h).1

/-- C10: after any sequence of `set_context`, `resizeGL` and `paintGL` calls
on a freshly constructed widget, an attached context whose `cx_init` flag is
clear is in `init_set`; every `paint()` a further `paintGL` issues, and every
`paint()` issued so far, goes to a context in `init_set`; and after a
`paintGL` with a context attached `cx_init` is false. -/
theorem C10_painted_contexts_initialized (ops : List Op) :
    (∀ c, (run ops).1.context = some c → (run ops).1.cx_init = false →
      c ∈ (run ops).1.init_set) ∧
    (∀ c, Call.paint c ∈ ((run ops).1.paintGL).2 → c ∈ ((run ops).1.paintGL).1.init_set) ∧
    (∀ c, Call.paint c ∈ (run ops).2 → c ∈ (run ops).1.init_set) ∧
    (∀ c, (run ops).1.context = some c → ((run ops).1.paintGL).1.cx_init = false) := by
  refine ⟨settled_run ops, ?_, ?_, ?_⟩
  · intro c h
    exact paint_issued (run ops).1 Op.paintGL c (settled_run ops) h
  · intro c h
    by_contra hc
    exact ((run_invariant ops c).2 hc).2 h
  · intro c hc
    rcases paintGL_cases (run ops).1 with ⟨hw, hr⟩ | ⟨d, hw, h1, h2, hr⟩ |
      ⟨d, hw, h1, h2, hr⟩ | ⟨d, hw, h1, hr⟩
    · rw [hw] at hc; cases hc
    · rw [hr]
    · rw [hr]
    · rw [hr]; exact h1

theorem repaint_async_context (w : GLWidget) : (w.repaint_async).1.context = w.context := by
  unfold GLWidget.repaint_async
  split_ifs <;> rfl

theorem repaint_async_timer (w : GLWidget) : (w.repaint_async).1.repaint_timer = true := by
  unfold GLWidget.repaint_async
  split_ifs with h
  · exact h
  · rfl

theorem repaint_async_armings (w : GLWidget) :
    armings (w.repaint_async).2 = if w.repaint_timer = false then 1 else 0 := by
  unfold GLWidget.repaint_async
  cases h : w.repaint_timer <;> simp [armings]

theorem armings_append (t1 t2 : List Call) : armings (t1 ++ t2) = armings t1 + armings t2 := by
  simp [armings, List.count_append]

theorem handle_forwarding (tk : Toolkit) (w : GLWidget) (c : Context) (ev : InputEvent)
    (h : w.context = some c) (hf : ev.fits tk) (hr : ev.requests_repaint = true) :
    ∃ call, call ≠ Call.timer_start ∧
      w.handle tk ev = Except.ok ((w.repaint_async).1, call :: (w.repaint_async).2) := by
  cases ev with
  | mousePress event =>
    obtain ⟨x, hx⟩ := pixel_coord_ok_of_fits tk event.x hf.1
    obtain ⟨y, hy⟩ := pixel_coord_ok_of_fits tk event.y hf.2
    exact ⟨_, by simp, mousePressEvent_ok tk w c event x y h hx hy⟩
  | mouseRelease event =>
    obtain ⟨x, hx⟩ := pixel_coord_ok_of_fits tk event.x hf.1
    obtain ⟨y, hy⟩ := pixel_coord_ok_of_fits tk event.y hf.2
    exact ⟨_, by simp, mouseReleaseEvent_ok tk w c event x y h hx hy⟩
  | mouseMove event =>
    obtain ⟨x, hx⟩ := pixel_coord_ok_of_fits tk event.x hf.1
    obtain ⟨y, hy⟩ := pixel_coord_ok_of_fits tk event.y hf.2
    exact ⟨_, by simp, mouseMoveEvent_ok tk w c event x y h hx hy⟩
  | wheel event =>
    obtain ⟨x, hx⟩ := pixel_coord_ok_of_fits tk event.x hf.1
    obtain ⟨y, hy⟩ := pixel_coord_ok_of_fits tk event.y hf.2
    exact ⟨_, by simp, wheelEvent_ok tk w c event x y h hx hy⟩
  | keyPress event =>
    have ha : event.isAutoRepeat = false := by simpa [InputEvent.requests_repaint] using hr
    refine ⟨Call.keyboard_event c
      { type := KeyboardEventType.KEYBOARD_EVENT_PRESS, keycode := event.key }, by simp, ?_⟩
    simp only [GLWidget.handle, GLWidget.keyPressEvent, ha]
    exact forward_key_of_context w c _ h
  | keyRelease event =>
    have ha : event.isAutoRepeat = false := by simpa [InputEvent.requests_repaint] using hr
    refine ⟨Call.keyboard_event c
      { type := KeyboardEventType.KEYBOARD_EVENT_RELEASE, keycode := event.key }, by simp, ?_⟩
    simp only [GLWidget.handle, GLWidget.keyReleaseEvent, ha]
    exact forward_key_of_context w c _ h

theorem handle_autorepeat (tk : Toolkit) (w : GLWidget) (ev : InputEvent)
    (hr : ev.requests_repaint = false) :
    ∃ call, call ≠ Call.timer_start ∧ w.handle tk ev = Except.ok (w, [call]) := by
  cases ev with
  | keyPress event =>
    have ha : event.isAutoRepeat = true := by simpa [InputEvent.requests_repaint] using hr
    exact ⟨Call.QWidget_keyPressEvent event, by simp,
      by simp [GLWidget.handle, GLWidget.keyPressEvent, ha]⟩
  | keyRelease event =>
    have ha : event.isAutoRepeat = true := by simpa [InputEvent.requests_repaint] using hr
    exact ⟨Call.QWidget_keyReleaseEvent event, by simp,
      by simp [GLWidget.handle, GLWidget.keyReleaseEvent, ha]⟩
  | mousePress event => simp [InputEvent.requests_repaint] at hr
  | mouseRelease event => simp [InputEvent.requests_repaint] at hr
  | mouseMove event => simp [InputEvent.requests_repaint] at hr
  | wheel event => simp [InputEvent.requests_repaint] at hr

theorem handle_armings (tk : Toolkit) (w : GLWidget) (c : Context) (ev : InputEvent)
    (h : w.context = some c) (hf : ev.fits tk) :
    ∃ w1 tr, w.handle tk ev = Except.ok (w1, tr) ∧ w1.context = some c ∧
      w1.repaint_timer = (w.repaint_timer || ev.requests_repaint) ∧
      armings tr = if w.repaint_timer = false ∧ ev.requests_repaint = true then 1 else 0 := by
  cases hr : ev.requests_repaint with
  | true =>
    obtain ⟨call, hne, he⟩ := handle_forwarding tk w c ev h hf hr
    refine ⟨_, _, he, by rw [repaint_async_context, h], ?_, ?_⟩
    · rw [repaint_async_timer]; simp
    · have : armings (call :: (w.repaint_async).2) = armings (w.repaint_async).2 := by
        unfold armings
        exact List.count_cons_of_ne hne.symm _
      rw [this, repaint_async_armings]
      simp
  | false =>
    obtain ⟨call, hne, he⟩ := handle_autorepeat tk w ev hr
    refine ⟨_, _, he, h, by simp, ?_⟩
    simp only [armings]
    rw [List.count_cons_of_ne hne.symm]
    simp

theorem burst_armings (tk : Toolkit) (evs : List InputEvent) (w : GLWidget) (c : Context)
    (h : w.context = some c) (hf : ∀ ev ∈ evs, ev.fits tk) :
    ∃ w1 tr, w.burst tk evs = Except.ok (w1, tr) ∧
      w1.repaint_timer = (w.repaint_timer || evs.any InputEvent.requests_repaint) ∧
      armings tr =
        if w.repaint_timer = false ∧ evs.any InputEvent.requests_repaint = true then 1
        else 0 := by
  induction evs generalizing w with
  | nil => exact ⟨w, [], rfl, by simp, by simp [armings]⟩
  | cons ev evs ih =>
    obtain ⟨w1, tr1, he, hc1, ht1, ha1⟩ :=
      handle_armings tk w c ev h (hf ev (List.mem_cons_self _ _))
    obtain ⟨w2, tr2, hb, ht2, ha2⟩ :=
      ih w1 hc1 (fun e he => hf e (List.mem_cons_of_mem _ he))
    refine ⟨w2, tr1 ++ tr2, ?_, ?_, ?_⟩
    · simp only [GLWidget.burst, he, hb]
    · rw [ht2, ht1, List.any_cons, Bool.or_assoc]
    · rw [armings_append, ha1, ha2, ht1, List.any_cons]
      generalize w.repaint_timer = a
      generalize ev.requests_repaint = b
      generalize List.any evs InputEvent.requests_repaint = d
      cases a <;> cases b <;> cases d <;> simp

/-- C9, as the code has it: with a context attached, the repaint timer idle
and coordinates that fit an `int`, a burst of input events of which at least
one is not an auto-repeated key event starts the repaint timer exactly once
and leaves it pending. -/
theorem C9_burst_arms_once (tk : Toolkit) (w : GLWidget) (c : Context)
    (evs : List InputEvent) (h : w.context = some c) (hidle : w.repaint_timer = false)
    (hf : ∀ ev ∈ evs, ev.fits tk) (hreq : ∃ ev ∈ evs, ev.requests_repaint = true) :
    ∃ w1 tr, w.burst tk evs = Except.ok (w1, tr) ∧ w1.repaint_timer = true ∧
      armings tr = 1 := by
  obtain ⟨w1, tr, hb, ht, ha⟩ := burst_armings tk evs w c h hf
  have hany : evs.any InputEvent.requests_repaint = true := List.any_eq_true.mpr hreq
  refine ⟨w1, tr, hb, ?_, ?_⟩
  · rw [ht, hany]; simp
  · rw [ha, if_pos ⟨hidle, hany⟩]

/-- C9 at the example widget and the burst press, move, move, release. -/
theorem C9_burst_arms_once_witness :
    example_widget.context = some 1 ∧ example_widget.repaint_timer = false ∧
    (∀ ev ∈ example_burst, ev.fits example_toolkit) ∧
    (∃ ev ∈ example_burst, ev.requests_repaint = true) ∧
    ∃ w1 tr, example_widget.burst example_toolkit example_burst = Except.ok (w1, tr) ∧
      w1.repaint_timer = true ∧ armings tr = 1 := by
  have hf : ∀ ev ∈ example_burst, ev.fits example_toolkit := by
    have f100 := fits_int_example_toolkit 100 (by norm_num) (by norm_num)
    have f101 := fits_int_example_toolkit 101 (by norm_num) (by norm_num)
    have f102 := fits_int_example_toolkit 102 (by norm_num) (by norm_num)
    have f50 := fits_int_example_toolkit 50 (by norm_num) (by norm_num)
    have f51 := fits_int_example_toolkit 51 (by norm_num) (by norm_num)
    simp [example_burst, InputEvent.fits, f100, f101, f102, f50, f51]
  have hreq : ∃ ev ∈ example_burst, ev.requests_repaint = true :=
    ⟨_, List.mem_cons_self _ _, rfl⟩
  exact ⟨rfl, rfl, hf, hreq, C9_burst_arms_once example_toolkit example_widget 1 example_burst
    rfl rfl hf hreq⟩

/-- C9 as stated fails: with context 1 attached and the timer idle, a burst
of one auto-repeated key-press is handed to the base class; the repaint
timer is not started at all. -/
theorem C9_autorepeat_burst_arms_nothing :
    example_widget.burst example_toolkit
        [InputEvent.keyPress { key := 65, isAutoRepeat := true }] =
      Except.ok (example_widget,
        [Call.QWidget_keyPressEvent { key := 65, isAutoRepeat := true }]) ∧
    armings [Call.QWidget_keyPressEvent { key := 65, isAutoRepeat := true }] = 0 := by
  constructor
  · simp [GLWidget.burst, GLWidget.handle, GLWidget.keyPressEvent]
  · simp [armings]
